import Mathlib

/-!
Verification development for the data3d Blender import pipeline
(`import_data3d.py`, `material_utils.py`).

The Python source is shallowly embedded: dictionaries become association
lists (`List (key × value)`, insertion order preserved, keys unique),
fallible code returns `Except`, and the Blender-side object store is
represented by explicit records threaded through the pipeline.
-/

namespace Data3d

/-- JSON / Python values that occur in a data3d raw material record.
Per the spec's RawMaterial data model the possible values are scalars,
strings, booleans, and fixed-length numeric arrays (colors, uv scale);
numeric arrays never nest.  `tuple` is the Python tuple form produced by
`tuple(value)` during hashing. -/
inductive Value where
  | num : Rat → Value
  | str : String → Value
  | bool : Bool → Value
  | list : List Rat → Value
  | tuple : List Rat → Value
deriving DecidableEq, Repr

/-- `tuple(value) if isinstance(value, list) else value`
(import_data3d.py line 65). -/
def pyTuple : Value → Value
  | .list l => .tuple l
  | v => v

/-- Python `dict` lookup on an association list (first binding wins;
a real dict has unique keys so this coincides with dict access). -/
def assocGet {α β : Type} [DecidableEq α] (m : List (α × β)) (k : α) : Option β :=
  (m.find? (fun p => decide (p.1 = k))).map (·.2)

/-- A raw data3d material: a JSON object, i.e. a finite string-keyed map. -/
abbrev RawMat : Type := List (String × Value)

namespace D3D

/-- Modelled from the spec: the `D3D` key-name constants are defined in
`io_scene_data3d/data3d_utils.py`, which is not part of this source
snapshot.  The spec (sections 3 and 6) fixes the vocabulary: diffuse and
specular colors, specular and emission coefficients, opacity, uv scale,
five texture-map families each with source/preview quality-tier
suffixes, cast/receive shadow flags, and three internal-use flags.  The
concrete spellings here and below stand in for the verbatim key strings;
no claim depends on the particular spellings, only on the fixed key set. -/
def col_diff : String := "colorDiffuse"
def col_spec : String := "colorSpecular"
def coef_spec : String := "specularCoef"
def coef_emit : String := "lightEmissionCoef"
def opacity : String := "opacity"
def uv_scale : String := "size"
def map_diff : String := "mapDiffuse"
def map_spec : String := "mapSpecular"
def map_norm : String := "mapNormal"
def map_alpha : String := "mapAlpha"
def map_light : String := "mapLight"
def map_suffix_source : String := "Source"
def map_suffix_preview : String := "Preview"
def cast_shadows : String := "castRealTimeShadows"
def receive_shadows : String := "receiveRealTimeShadows"
def add_lightmap : String := "addLightmap"
def use_in_calc : String := "useInBaking"
def hide_after_calc : String := "hideAfterBaking"
def m_material : String := "material"
def mat_default : String := "al_default"

end D3D

/-- The fixed list of comparison-relevant material keys built in
`get_al_material_hash` (import_data3d.py lines 45-60); when
`import_metadata` is set, three internal-use keys are appended. -/
def compare_keys (import_metadata : Bool) : List String :=
  [D3D.col_diff,
   D3D.col_spec,
   D3D.coef_spec,
   D3D.coef_emit,
   D3D.opacity,
   D3D.uv_scale,
   D3D.map_diff, D3D.map_diff ++ D3D.map_suffix_source, D3D.map_diff ++ D3D.map_suffix_preview,
   D3D.map_spec, D3D.map_spec ++ D3D.map_suffix_source, D3D.map_spec ++ D3D.map_suffix_preview,
   D3D.map_norm, D3D.map_norm ++ D3D.map_suffix_source, D3D.map_norm ++ D3D.map_suffix_preview,
   D3D.map_alpha, D3D.map_alpha ++ D3D.map_suffix_source, D3D.map_alpha ++ D3D.map_suffix_preview,
   D3D.map_light, D3D.map_light ++ D3D.map_suffix_source, D3D.map_light ++ D3D.map_suffix_preview,
   D3D.cast_shadows,
   D3D.receive_shadows]
  ++ (if import_metadata then [D3D.add_lightmap, D3D.use_in_calc, D3D.hide_after_calc] else [])

/-- The `hash_nodes` dict built by `get_al_material_hash`
(import_data3d.py lines 61-65): for every comparison-relevant key present
in the raw material, the (tuple-converted) value, keyed by the key, in
`compare_keys` order. -/
def hash_nodes_list (import_metadata : Bool) (al_material : RawMat) : List (String × Value) :=
  (compare_keys import_metadata).filterMap fun key =>
    (assocGet al_material key).map fun v => (key, pyTuple v)

/-- The material hash `hash(frozenset(hash_nodes.items()))`
(import_data3d.py line 66).  The Python builtin `hash` of a frozenset is
abstracted by the frozenset itself: two hashes are equal exactly when the
underlying sets of key/value items are equal, which is the intended
(collision-free) reading of a content hash. -/
abbrev MatHash : Type := Finset (String × Value)

/-- Content hash of a raw material. -/
def matHash (import_metadata : Bool) (al_material : RawMat) : MatHash :=
  (hash_nodes_list import_metadata al_material).toFinset

/-- `get_al_material_hash` (import_data3d.py lines 36-67): returns the
content hash together with the reduced material record (`hash_nodes`). -/
def get_al_material_hash (import_metadata : Bool) (al_material : RawMat) :
    MatHash × List (String × Value) :=
  (matHash import_metadata al_material, hash_nodes_list import_metadata al_material)

/-- `str(al_mat_hash)`: the string form of the material hash used as the
global material key.  Python's `str` on an `int` is injective, which the
one-field wrapper preserves. -/
structure StrHash where
  val : MatHash
deriving DecidableEq

def str_of_hash (h : MatHash) : StrHash := ⟨h⟩

section HashLemmas

/-- Membership in the reduced record characterised through dict lookup. -/
theorem mem_hash_nodes_list {imd : Bool} {A : RawMat} {p : String × Value} :
    p ∈ hash_nodes_list imd A ↔
      p.1 ∈ compare_keys imd ∧ (assocGet A p.1).map pyTuple = some p.2 := by
  rcases p with ⟨k, v⟩
  simp only [hash_nodes_list, List.mem_filterMap, Option.map_eq_some']
  constructor
  · rintro ⟨key, hkey, w, hw, heq⟩
    rw [Prod.mk.injEq] at heq
    obtain ⟨rfl, rfl⟩ := heq
    exact ⟨hkey, ⟨w, hw, rfl⟩⟩
  · rintro ⟨hk, w, hw, rfl⟩
    exact ⟨k, hk, w, hw, rfl⟩

/-- Membership in the hash (frozenset) characterised through dict lookup. -/
theorem mem_matHash {imd : Bool} {A : RawMat} {p : String × Value} :
    p ∈ matHash imd A ↔
      p.1 ∈ compare_keys imd ∧ (assocGet A p.1).map pyTuple = some p.2 := by
  rw [matHash, List.mem_toFinset, mem_hash_nodes_list]

end HashLemmas

/-- C1: For all raw materials A and B hashed by the material deduplicator
(with the same `import_metadata` mode), the computed hashes are equal if
and only if A and B have identical sets of present comparison-relevant
keys and identical values for every such present key; keys absent in both
contribute nothing, and list-valued fields are compared as fixed-length
tuples. -/
theorem matHash_eq_iff_same_present_values (imd : Bool) (A B : RawMat) :
    matHash imd A = matHash imd B ↔
      ∀ k ∈ compare_keys imd,
        (assocGet A k).map pyTuple = (assocGet B k).map pyTuple := by
  constructor
  · intro h k hk
    cases hA : (assocGet A k).map pyTuple with
    | none =>
      cases hB : (assocGet B k).map pyTuple with
      | none => rfl
      | some v =>
        have : (k, v) ∈ matHash imd A := by
          rw [h, mem_matHash]; exact ⟨hk, hB⟩
        rw [mem_matHash] at this
        rw [this.2] at hA
        exact absurd hA (by simp)
    | some v =>
      have : (k, v) ∈ matHash imd B := by
        rw [← h, mem_matHash]; exact ⟨hk, hA⟩
      rw [mem_matHash] at this
      exact this.2.symm
  · intro h
    apply Finset.ext
    intro p
    rw [mem_matHash, mem_matHash]
    constructor
    · rintro ⟨hk, hv⟩
      exact ⟨hk, by rw [← h p.1 hk]; exact hv⟩
    · rintro ⟨hk, hv⟩
      exact ⟨hk, by rw [h p.1 hk]; exact hv⟩

section AssocLemmas

variable {β : Type}

/-- In an association list with pairwise distinct keys, two entries with
the same key coincide. -/
theorem assoc_key_inj {A : List (String × β)} (hnd : (A.map Prod.fst).Nodup)
    {a b : String × β} (ha : a ∈ A) (hb : b ∈ A) (hk : a.1 = b.1) : a = b :=
  List.inj_on_of_nodup_map hnd ha hb hk

/-- Dict lookup characterised by membership, given distinct keys. -/
theorem assocGet_eq_some_iff {A : List (String × β)} (hnd : (A.map Prod.fst).Nodup)
    {k : String} {v : β} : assocGet A k = some v ↔ (k, v) ∈ A := by
  constructor
  · intro h
    rcases Option.map_eq_some'.mp h with ⟨q, hq, hqv⟩
    have hqmem : q ∈ A := List.mem_of_find?_eq_some hq
    have hqk : q.1 = k := by
      have := List.find?_some hq
      exact of_decide_eq_true this
    have : q = (k, v) := Prod.ext hqk hqv
    rwa [this] at hqmem
  · intro hmem
    have hsome : (A.find? (fun p => decide (p.1 = k))).isSome := by
      rw [List.find?_isSome]
      exact ⟨(k, v), hmem, by simp⟩
    rcases Option.isSome_iff_exists.mp hsome with ⟨q, hq⟩
    have hqmem : q ∈ A := List.mem_of_find?_eq_some hq
    have hqk : q.1 = k := by
      have := List.find?_some hq
      exact of_decide_eq_true this
    have : q = (k, v) := assoc_key_inj hnd hqmem hmem hqk
    rw [assocGet, hq, this]
    rfl

/-- Dict lookup is invariant under permutation of the underlying
key/value pairs, provided keys are pairwise distinct. -/
theorem assocGet_perm {A B : List (String × β)} (hnd : (A.map Prod.fst).Nodup)
    (hp : A.Perm B) (k : String) : assocGet A k = assocGet B k := by
  have hndB : (B.map Prod.fst).Nodup := ((hp.map Prod.fst).nodup_iff).mp hnd
  cases hA : assocGet A k with
  | some v =>
    have : (k, v) ∈ A := (assocGet_eq_some_iff hnd).mp hA
    exact ((assocGet_eq_some_iff hndB).mpr (hp.mem_iff.mp this)).symm
  | none =>
    cases hB : assocGet B k with
    | none => rfl
    | some v =>
      have : (k, v) ∈ B := (assocGet_eq_some_iff hndB).mp hB
      have : assocGet A k = some v := (assocGet_eq_some_iff hnd).mpr (hp.mem_iff.mpr this)
      rw [hA] at this
      exact absurd this (by simp)

end AssocLemmas

/-- C4: For every raw material, the material hash is independent of the
iteration order of the material's key/value mapping: any two enumerations
of the same present key/value pairs yield the same hash. -/
theorem matHash_order_independent (imd : Bool) (A B : RawMat)
    (hnd : (A.map Prod.fst).Nodup) (hp : A.Perm B) :
    matHash imd A = matHash imd B := by
  have hget : ∀ k, assocGet A k = assocGet B k := assocGet_perm hnd hp
  unfold matHash hash_nodes_list
  have hfun : (fun key => (assocGet A key).map fun v => (key, pyTuple v)) =
      (fun key => (assocGet B key).map fun v => (key, pyTuple v)) :=
    funext fun key => by rw [hget key]
  rw [hfun]

/-- Two concrete raw materials agreeing on present keys up to the
list-to-tuple conversion. -/
def c1MatA : RawMat := [(D3D.col_diff, Value.list [1, 0, 0]), (D3D.opacity, Value.num 1)]

def c1MatB : RawMat := [(D3D.opacity, Value.num 1), (D3D.col_diff, Value.tuple [1, 0, 0])]

/-- Witness for C1: the equivalence evaluated at a concrete pair of
materials that agree on every present comparison-relevant key (a
list-valued color on one side, the corresponding tuple on the other). -/
theorem matHash_eq_iff_same_present_values_witness :
    matHash false c1MatA = matHash false c1MatB :=
  (matHash_eq_iff_same_present_values false c1MatA c1MatB).mpr (by decide)

/-- Concrete enumerations of the same two key/value pairs in both orders. -/
def permMatA : RawMat := [(D3D.col_diff, Value.list [1, 0, 0]), (D3D.opacity, Value.num 1)]

def permMatB : RawMat := [(D3D.opacity, Value.num 1), (D3D.col_diff, Value.list [1, 0, 0])]

/-- Witness for C4 at a concrete pair of enumerations. -/
theorem matHash_order_independent_witness :
    ((permMatA.map Prod.fst).Nodup ∧ permMatA.Perm permMatB) ∧
      matHash false permMatA = matHash false permMatB :=
  ⟨⟨by decide, List.Perm.swap _ _ _⟩,
    matHash_order_independent false permMatA permMatB (by decide) (List.Perm.swap _ _ _)⟩

/-! ## Scene data model -/

/-- 3-component vector (positions, rotations). -/
abbrev V3 : Type := Rat × Rat × Rat

/-- The caller-supplied 4x4 orientation matrix (`mathutils.Matrix`),
represented by its rows. -/
abbrev M4 : Type := List (List Rat)

/-- One face of a data3d mesh: four parallel index tuples
(vertex-position, normal, uv0, uv1), unpacked in `create_mesh`
(import_data3d.py lines 258-262).  All faces are triangles, so the
vertex and normal slots are 3-tuples; the uv slots may be empty. -/
structure FaceRecord where
  v_idx : Nat × Nat × Nat
  n_idx : Nat × Nat × Nat
  uv_idx : List Nat := []
  uv2_idx : List Nat := []
deriving DecidableEq, Repr

/-- The json mesh record consumed by `import_scene`: only the fields the
pipeline inspects are carried (`name`, the face list and the
`D3D.m_material` entry).  `material = none` models the `material` key
being absent from the mesh dict; `material = some ""` models a present
but empty key. -/
structure AlMesh where
  name : String
  faces : List FaceRecord := []
  material : Option String := none
deriving DecidableEq, Repr

/-- A reference held in a Blender object's `data.materials` slot list:
either a deduplicated material (named by the string form of its hash) or
a material datablock referenced by plain name (the default material). -/
inductive BlMatRef where
  | ofHash : StrHash → BlMatRef
  | named : String → BlMatRef
deriving DecidableEq

/-- A Blender object as far as the import pipeline observes it: name,
datablock kind (mesh or empty), assigned material slots, parent link,
local transform, world matrix (with a write counter recording how many
times `matrix_world` was assigned), whether `transform_apply` baked its
transform into the data, removal from the scene, and the cycles
visibility flags. -/
structure BlObject where
  name : String
  isMesh : Bool
  data_materials : List BlMatRef := []
  parent : Option String := none
  location : V3 := (0, 0, 0)
  rotation_euler : V3 := (0, 0, 0)
  matrix_world : Option M4 := none
  mw_writes : Nat := 0
  baked : Bool := false
  bl_removed : Bool := false
  cycles_vis_shadow : Bool := true
  cycles_vis_camera : Bool := true
deriving DecidableEq

/-- Modelled from the spec: class `Data3dObject` is declared in
`io_scene_data3d/data3d_utils.py`, which is not part of this source
snapshot.  Its shape follows the spec's SceneNode record (section 3):
identity, meshes, the local material map, the `material_hash_map`
populated during deduplication, local position/rotation, the parent
reference (held here as an index into the decoded node list) and the
children.  The `bl_object` / `bl_emission_object` slots are filled by
`set_bl_object` / `set_bl_emission_object` during `import_scene`. -/
structure Data3dObject where
  node_id : String
  meshes : List AlMesh := []
  materials : List (String × RawMat) := []
  mat_hash_map : List (String × StrHash) := []
  position : V3 := (0, 0, 0)
  rotation : V3 := (0, 0, 0)
  parentIdx : Option Nat := none
  children : List String := []
  bl_object : Option BlObject := none
  bl_emission_object : Option BlObject := none
deriving DecidableEq

/-! ## Material Deduplicator (import_data3d_materials, lines 69-91) -/

/-- The canonical material table `al_hashed_materials`: hash to reduced
record, in first-insertion order. -/
abbrev MatTable : Type := List (MatHash × List (String × Value))

/-- One iteration of the inner loop of `import_data3d_materials`
(lines 75-81): hash the raw material, record the string form of the hash
under the node-local key, and insert the reduced record into the table
unless the hash is already present. -/
def process_material (imd : Bool) (st : List (String × StrHash) × MatTable)
    (km : String × RawMat) : List (String × StrHash) × MatTable :=
  let hm := get_al_material_hash imd km.2
  (st.1 ++ [(km.1, str_of_hash hm.1)],
   if hm.1 ∈ st.2.map Prod.fst then st.2 else st.2 ++ [(hm.1, hm.2)])

/-- Per-node body of `import_data3d_materials` (lines 72-83): builds the
node's `material_hash_map` from an empty dict and threads the global
table through. -/
def process_object (imd : Bool) (tbl : MatTable) (d : Data3dObject) :
    Data3dObject × MatTable :=
  let st := d.materials.foldl (process_material imd) ([], tbl)
  ({ d with mat_hash_map := st.1 }, st.2)

/-- One node of the outer loop of `import_data3d_materials`. -/
def dedup_step (imd : Bool) (acc : List Data3dObject × MatTable) (d : Data3dObject) :
    List Data3dObject × MatTable :=
  let r := process_object imd acc.2 d
  (acc.1 ++ [r.1], r.2)

/-- The deduplication stage of `import_data3d_materials`: walks the node
list in order, populating each node's `material_hash_map` and the single
global canonical table (started empty).  The subsequent construction of
Blender material datablocks from the table (lines 85-91) is modelled
where `import_scene` consumes the table. -/
def import_data3d_materials (imd : Bool) (objs : List Data3dObject) :
    List Data3dObject × MatTable :=
  objs.foldl (dedup_step imd) ([], [])

/-- The per-node `material_hash_map` contents that deduplication
produces: every node-local key mapped to the string form of its
material's hash. -/
def expected_hash_map (imd : Bool) (d : Data3dObject) : List (String × StrHash) :=
  d.materials.map fun km => (km.1, str_of_hash (matHash imd km.2))

/-- A node after deduplication: `material_hash_map` populated, all other
fields untouched. -/
def dedup_update (imd : Bool) (d : Data3dObject) : Data3dObject :=
  { d with mat_hash_map := expected_hash_map imd d }

/-- All raw materials of a node list in encounter order (node order,
then each node's material-map order). -/
def encounters (objs : List Data3dObject) : List RawMat :=
  (objs.map fun d => d.materials.map Prod.snd).flatten

/-- Table insertion for a single raw material (first-seen-wins). -/
def tbl_insert (imd : Bool) (tbl : MatTable) (m : RawMat) : MatTable :=
  if matHash imd m ∈ tbl.map Prod.fst then tbl
  else tbl ++ [(matHash imd m, hash_nodes_list imd m)]

/-- Folding table insertion over a list of raw materials. -/
def tbl_fold (imd : Bool) (tbl : MatTable) (ms : List RawMat) : MatTable :=
  ms.foldl (tbl_insert imd) tbl

section DedupLemmas

/-- Lookup succeeds exactly on the present keys. -/
theorem assocGet_isSome {α β : Type} [DecidableEq α] (A : List (α × β)) (k : α) :
    (assocGet A k).isSome ↔ k ∈ A.map Prod.fst := by
  rw [assocGet, Option.isSome_map', List.find?_isSome, List.mem_map]
  constructor
  · rintro ⟨p, hp, hpk⟩
    exact ⟨p, hp, of_decide_eq_true hpk⟩
  · rintro ⟨p, hp, hpk⟩
    exact ⟨p, hp, decide_eq_true hpk⟩

/-- Lookup at the head key. -/
theorem assocGet_cons_pos {α β : Type} [DecidableEq α] {a : α × β} (A : List (α × β))
    {k : α} (hk : a.1 = k) : assocGet (a :: A) k = some a.2 := by
  simp [assocGet, List.find?_cons, hk]

/-- Lookup skips a head entry with a different key. -/
theorem assocGet_cons_neg {α β : Type} [DecidableEq α] {a : α × β} (A : List (α × β))
    {k : α} (hk : ¬a.1 = k) : assocGet (a :: A) k = assocGet A k := by
  simp [assocGet, List.find?_cons, hk]

/-- Lookup in a concatenation: the left dict wins. -/
theorem assocGet_append {α β : Type} [DecidableEq α] (A B : List (α × β)) (k : α) :
    assocGet (A ++ B) k =
      match assocGet A k with
      | some v => some v
      | none => assocGet B k := by
  induction A with
  | nil => simp [assocGet]
  | cons a A ih =>
    by_cases hk : a.1 = k
    · rw [List.cons_append, assocGet_cons_pos _ hk, assocGet_cons_pos _ hk]
    · rw [List.cons_append, assocGet_cons_neg _ hk, assocGet_cons_neg _ hk]
      exact ih

/-- Effect of a single first-seen-wins insertion on lookup. -/
theorem assocGet_tbl_insert (imd : Bool) (tbl : MatTable) (m : RawMat) (h : MatHash) :
    assocGet (tbl_insert imd tbl m) h =
      match assocGet tbl h with
      | some v => some v
      | none => if matHash imd m = h then some (hash_nodes_list imd m) else none := by
  rw [tbl_insert]
  by_cases hmem : matHash imd m ∈ tbl.map Prod.fst
  · rw [if_pos hmem]
    cases hget : assocGet tbl h with
    | some v => rfl
    | none =>
      by_cases heq : matHash imd m = h
      · exfalso
        rw [heq] at hmem
        have := (assocGet_isSome tbl h).mpr hmem
        rw [hget] at this
        exact absurd this (by simp)
      · simp [heq]
  · rw [if_neg hmem, assocGet_append]
    cases hget : assocGet tbl h with
    | some v => rfl
    | none =>
      by_cases heq : matHash imd m = h
      · simp [assocGet, heq]
      · simp [assocGet, heq]

/-- Lookup after folding insertions: an existing binding wins, otherwise
the first inserted material with the requested hash provides the entry. -/
theorem assocGet_tbl_fold (imd : Bool) (ms : List RawMat) (tbl : MatTable) (h : MatHash) :
    assocGet (tbl_fold imd tbl ms) h =
      match assocGet tbl h with
      | some v => some v
      | none => (ms.find? fun m => decide (matHash imd m = h)).map (hash_nodes_list imd) := by
  induction ms generalizing tbl with
  | nil =>
    cases hget : assocGet tbl h <;> simp [tbl_fold, hget]
  | cons m ms ih =>
    rw [tbl_fold, List.foldl_cons, ← tbl_fold, ih, assocGet_tbl_insert]
    cases hget : assocGet tbl h with
    | some v => rfl
    | none =>
      by_cases heq : matHash imd m = h
      · simp [List.find?_cons, heq]
      · simp [List.find?_cons, heq]

/-- Folding insertions preserves distinctness of the table's hash keys. -/
theorem tbl_fold_keys_nodup (imd : Bool) (ms : List RawMat) (tbl : MatTable)
    (hnd : (tbl.map Prod.fst).Nodup) : ((tbl_fold imd tbl ms).map Prod.fst).Nodup := by
  induction ms generalizing tbl with
  | nil => exact hnd
  | cons m ms ih =>
    rw [tbl_fold, List.foldl_cons, ← tbl_fold]
    apply ih
    rw [tbl_insert]
    by_cases hmem : matHash imd m ∈ tbl.map Prod.fst
    · rw [if_pos hmem]; exact hnd
    · rw [if_neg hmem, List.map_append]
      rw [List.nodup_append]
      exact ⟨hnd, List.nodup_singleton _, by simpa using fun hx => hmem hx⟩

/-- The inner material loop splits into the hash-map part and the table
part. -/
theorem foldl_process_material (imd : Bool) (mats : List (String × RawMat))
    (mhm0 : List (String × StrHash)) (tbl : MatTable) :
    mats.foldl (process_material imd) (mhm0, tbl) =
      (mhm0 ++ mats.map (fun km => (km.1, str_of_hash (matHash imd km.2))),
       tbl_fold imd tbl (mats.map Prod.snd)) := by
  induction mats generalizing mhm0 tbl with
  | nil => simp [tbl_fold]
  | cons km mats ih =>
    rw [List.foldl_cons]
    have hstep : process_material imd (mhm0, tbl) km =
        (mhm0 ++ [(km.1, str_of_hash (matHash imd km.2))], tbl_insert imd tbl km.2) := rfl
    rw [hstep, ih]
    simp [tbl_fold]

/-- `process_object` populates the expected hash map and folds the
node's materials into the table. -/
theorem process_object_eq (imd : Bool) (tbl : MatTable) (d : Data3dObject) :
    process_object imd tbl d =
      (dedup_update imd d, tbl_fold imd tbl (d.materials.map Prod.snd)) := by
  rw [process_object, foldl_process_material]
  rfl

/-- Closed form of the deduplication stage. -/
theorem import_data3d_materials_eq (imd : Bool) (objs : List Data3dObject) :
    import_data3d_materials imd objs =
      (objs.map (dedup_update imd), tbl_fold imd [] (encounters objs)) := by
  suffices hgen : ∀ (acc : List Data3dObject) (tbl : MatTable),
      objs.foldl (dedup_step imd) (acc, tbl) =
      (acc ++ objs.map (dedup_update imd), tbl_fold imd tbl (encounters objs)) by
    rw [import_data3d_materials, hgen]
    simp
  have encounters_cons : ∀ (d : Data3dObject) (objs : List Data3dObject),
      encounters (d :: objs) = d.materials.map Prod.snd ++ encounters objs := by
    intro d objs
    rw [encounters, List.map_cons, List.flatten_cons, encounters]
  have tbl_fold_append : ∀ (tbl : MatTable) (l₁ l₂ : List RawMat),
      tbl_fold imd tbl (l₁ ++ l₂) = tbl_fold imd (tbl_fold imd tbl l₁) l₂ := by
    intro tbl l₁ l₂
    rw [tbl_fold, List.foldl_append, tbl_fold, tbl_fold]
  have hstep : ∀ (acc : List Data3dObject) (tbl : MatTable) (d : Data3dObject),
      dedup_step imd (acc, tbl) d =
        (acc ++ [dedup_update imd d], tbl_fold imd tbl (d.materials.map Prod.snd)) := by
    intro acc tbl d
    simp only [dedup_step, process_object_eq]
  induction objs with
  | nil => intro acc tbl; simp [encounters, tbl_fold]
  | cons d objs ih =>
    intro acc tbl
    rw [List.foldl_cons, hstep, ih, encounters_cons, tbl_fold_append]
    simp [List.append_assoc]

end DedupLemmas

/-- C3: For every node list processed by the material deduplicator: the
canonical table has exactly one entry per distinct hash; the entry for a
hash is the reduced record of the first material encountered with that
hash (later duplicates are not re-inspected); and each node's
`material_hash_map` is populated mapping every node-local material key
to the string form of its material's canonical hash. -/
theorem dedup_first_seen_wins_and_hash_maps (imd : Bool) (objs : List Data3dObject) :
    (((import_data3d_materials imd objs).2.map Prod.fst).Nodup) ∧
    (∀ h : MatHash,
      assocGet (import_data3d_materials imd objs).2 h =
        ((encounters objs).find? fun m => decide (matHash imd m = h)).map
          (hash_nodes_list imd)) ∧
    (import_data3d_materials imd objs).1 = objs.map (dedup_update imd) := by
  rw [import_data3d_materials_eq]
  refine ⟨tbl_fold_keys_nodup imd _ [] (by simp), fun h => ?_, rfl⟩
  rw [assocGet_tbl_fold]
  simp [assocGet]

/-- C5: Material deduplication is idempotent: running the stage twice
over the same node list (same `import_metadata` mode) yields an
identical hash table and identical per-node `material_hash_map`
contents as running it once. -/
theorem dedup_idempotent (imd : Bool) (objs : List Data3dObject) :
    import_data3d_materials imd (import_data3d_materials imd objs).1 =
      import_data3d_materials imd objs := by
  rw [import_data3d_materials_eq imd objs]
  show import_data3d_materials imd (objs.map (dedup_update imd)) = _
  rw [import_data3d_materials_eq]
  have hupd : ∀ d, dedup_update imd (dedup_update imd d) = dedup_update imd d :=
    fun _ => rfl
  have henc : encounters (objs.map (dedup_update imd)) = encounters objs := by
    rw [encounters, encounters, List.map_map]
    exact congrArg List.flatten (List.map_congr_left fun d _ => rfl)
  rw [henc, List.map_map]
  refine congrArg (fun l => (l, tbl_fold imd [] (encounters objs))) ?_
  exact List.map_congr_left fun d _ => hupd d

/-! ## Mesh Assembler (create_mesh, import_data3d.py lines 191-289) -/

/-- The loop bookkeeping accumulated by the face loop of `create_mesh`
(lines 210-225): `loops_vert_idx`, `faces_loop_start`,
`faces_loop_total` and the running loop counter `l_idx`. -/
structure LoopState where
  loops_vert_idx : List Nat
  faces_loop_start : List Nat
  faces_loop_total : List Nat
  l_idx : Nat
deriving DecidableEq, Repr

/-- One iteration of `for f in faces` (lines 217-225): extend the loop
vertex indices by the face's three vertex indices, record the loop start,
record the fixed per-face loop count 3, and advance the counter. -/
def create_mesh_loop_body (s : LoopState) (f : FaceRecord) : LoopState :=
  { loops_vert_idx := s.loops_vert_idx ++ [f.v_idx.1, f.v_idx.2.1, f.v_idx.2.2],
    faces_loop_start := s.faces_loop_start ++ [s.l_idx],
    faces_loop_total := s.faces_loop_total ++ [3],
    l_idx := s.l_idx + 3 }

/-- The loop bookkeeping built by `create_mesh` for a face list. -/
def create_mesh_loops (faces : List FaceRecord) : LoopState :=
  faces.foldl create_mesh_loop_body ⟨[], [], [], 0⟩

/-- `total_loops = len(faces)*3` (line 208). -/
def total_loops (faces : List FaceRecord) : Nat := faces.length * 3

/-- Closed form of the face loop from an arbitrary starting state. -/
theorem foldl_create_mesh_loop_body (faces : List FaceRecord) (s : LoopState) :
    faces.foldl create_mesh_loop_body s =
      { loops_vert_idx := s.loops_vert_idx ++
          (faces.map fun f => [f.v_idx.1, f.v_idx.2.1, f.v_idx.2.2]).flatten,
        faces_loop_start := s.faces_loop_start ++
          (List.range faces.length).map fun i => s.l_idx + 3 * i,
        faces_loop_total := s.faces_loop_total ++ List.replicate faces.length 3,
        l_idx := s.l_idx + 3 * faces.length } := by
  induction faces generalizing s with
  | nil => simp
  | cons f faces ih =>
    rw [List.foldl_cons, ih]
    simp only [create_mesh_loop_body, LoopState.mk.injEq, List.length_cons,
      List.map_cons, List.flatten_cons, List.range_succ_eq_map, List.map_map]
    refine ⟨by simp, ?_, by simp [List.replicate_succ], by omega⟩
    rw [List.append_assoc, List.singleton_append]
    refine congrArg (fun l => s.faces_loop_start ++ l) ?_
    refine congrArg₂ List.cons (by omega) ?_
    exact List.map_congr_left fun i _ => by simp only [Function.comp_apply]; omega

/-- C6: For every mesh assembled from a face list of n triangular faces,
the loop bookkeeping satisfies `loop_start[i] + 3 == loop_start[i+1]`
for every i < n-1, `loop_start[0] == 0`, every `loop_total` entry equals
3, and the total number of loops emitted equals 3 * n. -/
theorem create_mesh_loop_bookkeeping (faces : List FaceRecord) :
    (∀ i, i + 1 < faces.length →
      ((create_mesh_loops faces).faces_loop_start.get? i).map (· + 3) =
        (create_mesh_loops faces).faces_loop_start.get? (i + 1)) ∧
    (0 < faces.length → (create_mesh_loops faces).faces_loop_start.get? 0 = some 0) ∧
    (∀ t ∈ (create_mesh_loops faces).faces_loop_total, t = 3) ∧
    (create_mesh_loops faces).loops_vert_idx.length = total_loops faces ∧
    total_loops faces = 3 * faces.length := by
  rw [create_mesh_loops, foldl_create_mesh_loop_body]
  refine ⟨?_, ?_, ?_, ?_, by rw [total_loops]; omega⟩
  · intro i hi
    simp only [List.nil_append, List.get?_map, List.get?_range (by omega : i < faces.length),
      List.get?_range hi, Option.map_some']
    exact congrArg some (by omega)
  · intro hn
    simp only [List.nil_append, List.get?_map, List.get?_range hn, Option.map_some']
  · intro t ht
    simp only [List.nil_append] at ht
    exact List.eq_of_mem_replicate ht
  · simp only [List.nil_append]
    rw [total_loops]
    induction faces with
    | nil => simp
    | cons f faces ih =>
      simp only [List.map_cons, List.flatten_cons, List.length_append, ih, List.length_cons]
      simp only [List.length_cons, List.length_nil]
      omega

/-- Two concrete triangular faces used to witness the loop bookkeeping. -/
def witnessFaces : List FaceRecord :=
  [{ v_idx := (0, 1, 2), n_idx := (0, 0, 0) },
   { v_idx := (2, 1, 3), n_idx := (1, 1, 1) }]

/-- Witness for C6 at a concrete two-face mesh. -/
theorem create_mesh_loop_bookkeeping_witness :
    (0 + 1 < witnessFaces.length ∧ 0 < witnessFaces.length) ∧
    ((create_mesh_loops witnessFaces).faces_loop_start.get? 0).map (· + 3) =
      (create_mesh_loops witnessFaces).faces_loop_start.get? 1 ∧
    (create_mesh_loops witnessFaces).faces_loop_start.get? 0 = some 0 :=
  ⟨⟨by decide, by decide⟩,
    (create_mesh_loop_bookkeeping witnessFaces).1 0 (by decide),
    (create_mesh_loop_bookkeeping witnessFaces).2.1 (by decide)⟩

/-! ## import_scene (import_data3d.py lines 94-477) -/

/-- Python errors surfaced by the import pipeline.  `materialNotFound`
models `raise Exception('Material not found: ' + hashed_key)` (line 389,
carrying the falsy-or-unresolved hashed key); `importSceneFailed` models
the bare `except: raise Exception('Import Scene failed. ', ...)` wrapper
(lines 476-477). -/
inductive PyErr where
  | typeError : String → PyErr
  | attributeError : String → PyErr
  | materialNotFound : Option StrHash → PyErr
  | importSceneFailed : PyErr → PyErr
deriving DecidableEq

/-- `material_utils.Material` as the import pipeline observes it: the
hashed key it was constructed with and the reduced json material record.
The Blender / Cycles datablocks it creates are host-side effects outside
the observed state. -/
structure Material where
  al_material_hash : StrHash
  al_material : List (String × Value)
deriving DecidableEq

/-- `Material.get_al_mat_node` (material_utils.py lines 54-58): return
the value stored under `key`, or None when absent.  Note the parameter
list: besides `self` the method accepts exactly one parameter, `key`. -/
def Material.get_al_mat_node (m : Material) (key : String) : Option Value :=
  assocGet m.al_material key

/-- The declared parameter names of `Material.get_al_mat_node`
(material_utils.py line 54), excluding `self`. -/
def get_al_mat_node_params : List String := ["key"]

/-- Python call semantics for `get_al_mat_node` with one positional
argument and a list of keyword arguments: a keyword argument whose name
is not a declared parameter raises TypeError before the body runs. -/
def call_get_al_mat_node (m : Material) (key : String)
    (kwargs : List (String × Value)) : Except PyErr (Option Value) :=
  if kwargs.all fun kw => kw.1 ∈ get_al_mat_node_params then
    .ok (m.get_al_mat_node key)
  else
    .error (.typeError "get_al_mat_node got an unexpected keyword argument")

/-- Python 3 comparison `x > 0.0` where `x` came back from
`get_al_mat_node`: numbers and booleans order against a float, anything
else (None included) raises TypeError. -/
def pyGtZero : Option Value → Except PyErr Bool
  | some (.num q) => .ok (decide (0 < q))
  | some (.bool b) => .ok b
  | _ => .error (.typeError "unorderable types")

/-- The `is_emissive` test at import_data3d.py line 386:
`mat.get_al_mat_node(D3D.coef_emit, fallback=0.0) > 0.0`.  The call
passes the keyword argument `fallback`, which the method does not
declare. -/
def mesh_is_emissive (mat : Material) : Except PyErr Bool :=
  match call_get_al_mat_node mat D3D.coef_emit [("fallback", Value.num 0)] with
  | .error e => .error e
  | .ok v => pyGtZero v

/-- The per-mesh body of the `for al_mesh in al_meshes` loop
(import_data3d.py lines 372-402), to the extent the pipeline state
observes it: create the object for the mesh (`D.objects.new`), resolve
and append its material, and compute `is_emissive`.  Scene linking and
`optimize_mesh` (bmesh cleanup of the freshly created geometry) do not
touch the observed fields.  The default-material branch appends a
datablock named `D3D.mat_default` whether it already existed or is newly
created (lines 391-394). -/
def process_mesh (import_materials : Bool) (bl_materials : List (StrHash × Material))
    (mat_hash_map : List (String × StrHash)) (al_mesh : AlMesh) :
    Except PyErr (BlObject × Bool) :=
  let ob : BlObject := { name := al_mesh.name, isMesh := true }
  if import_materials then
    match al_mesh.material with
    | some original_key =>
      if original_key ≠ "" then
        -- hashed_key = mat_hash_map[original_key] if original_key in mat_hash_map else ''
        match assocGet mat_hash_map original_key with
        | some hashed_key =>
          match assocGet bl_materials hashed_key with
          | some mat =>
            match mesh_is_emissive mat with
            | .error e => .error e
            | .ok emissive =>
              .ok ({ ob with
                data_materials := ob.data_materials ++ [.ofHash mat.al_material_hash] }, emissive)
          | none => .error (.materialNotFound (some hashed_key))
        | none => .error (.materialNotFound none)
      else
        .ok (ob, false)
    | none =>
      .ok ({ ob with data_materials := ob.data_materials ++ [.named D3D.mat_default] }, false)
  else
    .ok (ob, false)

/-- The whole mesh loop of one node: splits the created objects into
`bl_meshes` and `bl_emission_meshes` in encounter order. -/
def import_object_meshes (import_materials : Bool) (bl_materials : List (StrHash × Material))
    (mat_hash_map : List (String × StrHash)) :
    List AlMesh → Except PyErr (List BlObject × List BlObject)
  | [] => .ok ([], [])
  | m :: rest =>
    match process_mesh import_materials bl_materials mat_hash_map m with
    | .error e => .error e
    | .ok r =>
      match import_object_meshes import_materials bl_materials mat_hash_map rest with
      | .error e => .error e
      | .ok rr => .ok (if r.2 then (rr.1, r.1 :: rr.2) else (r.1 :: rr.1, rr.2))

/-- `join_objects` (lines 291-314) on a non-empty group: all objects are
joined into the first one, which keeps its identity; material slots
accumulate. -/
def join_objects (g0 : BlObject) (rest : List BlObject) : BlObject :=
  { g0 with data_materials := g0.data_materials ++ (rest.map (·.data_materials)).flatten }

/-- The per-node body of `for data3d_object in data3d_objects`
(lines 365-424): import the node's meshes, join them into the primary
object (or create an empty placeholder object named after the node),
join emissive meshes into the `_emission` object with camera and shadow
visibility disabled, and set the node's local position and rotation on
the primary object. -/
def build_node (import_materials : Bool) (bl_materials : List (StrHash × Material))
    (d : Data3dObject) : Except PyErr Data3dObject :=
  match import_object_meshes import_materials bl_materials d.mat_hash_map d.meshes with
  | .error e => .error e
  | .ok r =>
    let bl_object : BlObject :=
      match r.1 with
      | g0 :: rest => { join_objects g0 rest with name := d.node_id }
      | [] => { name := d.node_id, isMesh := false }
    let bl_emission : Option BlObject :=
      match r.2 with
      | e0 :: rest => some { join_objects e0 rest with
          name := d.node_id ++ "_emission",
          cycles_vis_shadow := false,
          cycles_vis_camera := false }
      | [] => none
    .ok { d with
      bl_object := some { bl_object with location := d.position, rotation_euler := d.rotation },
      bl_emission_object := bl_emission }

/-- The node loop, in declaration order. -/
def build_nodes (import_materials : Bool) (bl_materials : List (StrHash × Material)) :
    List Data3dObject → Except PyErr (List Data3dObject)
  | [] => .ok []
  | d :: rest =>
    match build_node import_materials bl_materials d with
    | .error e => .error e
    | .ok d2 =>
      match build_nodes import_materials bl_materials rest with
      | .error e => .error e
      | .ok rest2 => .ok (d2 :: rest2)

/-- The name of the parent node's primary object (the parent's
`bl_object` is named after the parent's `node_id` by `build_node`).  The
decoder guarantees a parent reference resolves within the node list. -/
def parent_name (objs : List Data3dObject) (p : Nat) : String :=
  ((objs.get? p).map (·.node_id)).getD ""

/-- One node of the parenting loop (lines 430-434): link a non-root
node's primary object (and its emission object, if any) to the parent's
primary object. -/
def link_object (objs : List Data3dObject) (d : Data3dObject) : Data3dObject :=
  match d.parentIdx with
  | some p =>
    { d with
      bl_object := d.bl_object.map fun o => { o with parent := some (parent_name objs p) },
      bl_emission_object := d.bl_emission_object.map fun o =>
        { o with parent := some (parent_name objs p) } }
  | none => d

/-- The parenting loop (lines 428-438). -/
def set_parent_links (objs : List Data3dObject) : List Data3dObject :=
  objs.map (link_object objs)

/-- `bl_root_objects`: the primary objects of root nodes, together with
their emission objects when present (lines 435-438). -/
def root_objects (objs : List Data3dObject) : List BlObject :=
  (objs.map fun d =>
    if d.parentIdx.isNone then d.bl_object.toList ++ d.bl_emission_object.toList else []).flatten

/-- The filter condition of `normalise_objects` (line 347):
`if obj is None and obj.type != 'MESH'`.  For a real object the
conjunction short-circuits to False at `obj is None`; for None, the
attribute access `obj.type` in the right conjunct raises
AttributeError. -/
def normalise_pick (obj : Option BlObject) : Except PyErr Bool :=
  match obj with
  | some _ => .ok false
  | none => .error (.attributeError "NoneType object has no attribute type")

/-- The group accumulation loop of `normalise_objects`
(lines 343-348). -/
def normalise_group : List (Option BlObject) → Except PyErr (List (Option BlObject))
  | [] => .ok []
  | obj :: rest =>
    match normalise_pick obj with
    | .error e => .error e
    | .ok c =>
      match normalise_group rest with
      | .error e => .error e
      | .ok g => .ok (if c then obj :: g else g)

/-- `O.object.transform_apply` on the selected group (line 353) bakes
the selected objects' transforms into their data; objects whose name is
in the selected group are marked `baked`. -/
def bake_objects (names : List String) (objs : List Data3dObject) : List Data3dObject :=
  objs.map fun d =>
    { d with
      bl_object := d.bl_object.map fun o => if o.name ∈ names then { o with baked := true } else o,
      bl_emission_object := d.bl_emission_object.map fun o =>
        if o.name ∈ names then { o with baked := true } else o }

/-- The assignment `obj.matrix_world = global_matrix` performed for the
(primary and emission) objects of a root node; a non-root node's objects
are not in `bl_root_objects`, so they are untouched. -/
def apply_matrix_object (g : M4) (d : Data3dObject) : Data3dObject :=
  if d.parentIdx.isNone then
    { d with
      bl_object := d.bl_object.map fun o =>
        { o with matrix_world := some g, mw_writes := o.mw_writes + 1 },
      bl_emission_object := d.bl_emission_object.map fun o =>
        { o with matrix_world := some g, mw_writes := o.mw_writes + 1 } }
  else d

/-- The matrix loop (lines 445-446): `obj.matrix_world = global_matrix`
for every object in `bl_root_objects`, i.e. for the primary and emission
objects of exactly the root nodes, each assigned once. -/
def apply_global_matrix (g : M4) (objs : List Data3dObject) : List Data3dObject :=
  objs.map (apply_matrix_object g)

/-- Hierarchy-preserving cleanup (lines 448-453): unlink and remove a
node's primary object when it is an EMPTY with no children. -/
def prune_empty_leaf (d : Data3dObject) : Data3dObject :=
  match d.bl_object with
  | some o =>
    if !o.isMesh && d.children.isEmpty then
      { d with bl_object := some { o with bl_removed := true } }
    else d
  | none => d

/-- `parent_clear(type='CLEAR_KEEP_TRANSFORM')` (line 462): drop the
parent link of the primary object, keeping the world transform. -/
def clear_parent (d : Data3dObject) : Data3dObject :=
  { d with bl_object := d.bl_object.map fun o => { o with parent := none } }

/-- Flatten-hierarchy cleanup (lines 466-469): remove every EMPTY
primary object. -/
def prune_empty_flat (d : Data3dObject) : Data3dObject :=
  match d.bl_object with
  | some o =>
    if !o.isMesh then { d with bl_object := some { o with bl_removed := true } } else d
  | none => d

/-- The caller-supplied options of `import_scene` (lines 107-110). -/
structure ImportConfig where
  import_materials : Bool
  import_hierarchy : Bool
  import_al_metadata : Bool
  global_matrix : M4
deriving DecidableEq

/-- The state `import_scene` leaves behind: the node list with their
Blender objects, and the deduplicated Blender material dict. -/
structure ImportResult where
  objs : List Data3dObject
  bl_materials : List (StrHash × Material)
deriving DecidableEq

/-- The node list after the optional material stage: `import_scene`
runs `import_data3d_materials` (populating `mat_hash_map`) only when
`import_materials` is set (lines 359-362). -/
def dedup_objs (cfg : ImportConfig) (objs0 : List Data3dObject) : List Data3dObject :=
  if cfg.import_materials then (import_data3d_materials cfg.import_al_metadata objs0).1
  else objs0

/-- The `bl_materials` dict built from the canonical table (lines 86-91):
one `Material` per table entry, keyed and named by the string form of
the hash. -/
def dedup_mats (cfg : ImportConfig) (objs0 : List Data3dObject) : List (StrHash × Material) :=
  if cfg.import_materials then
    (import_data3d_materials cfg.import_al_metadata objs0).2.map fun e =>
      (str_of_hash e.1, ⟨str_of_hash e.1, e.2⟩)
  else []

/-- The body of `import_scene` inside its `try` (lines 355-474), with
the performance counters dropped: material deduplication (when
`import_materials`), the per-node mesh/object construction, parenting
and root collection, `normalise_objects` over the roots followed by the
global-matrix loop, and the hierarchy-policy cleanup branch. -/
def import_scene_body (cfg : ImportConfig) (objs0 : List Data3dObject) :
    Except PyErr ImportResult :=
  match build_nodes cfg.import_materials (dedup_mats cfg objs0) (dedup_objs cfg objs0) with
  | .error e => .error e
  | .ok objs2 =>
    match normalise_group ((root_objects (set_parent_links objs2)).map some) with
    | .error e => .error e
    | .ok group =>
      let objs5 := apply_global_matrix cfg.global_matrix
        (bake_objects (group.filterMap fun o => o.map (·.name)) (set_parent_links objs2))
      if cfg.import_hierarchy then
        .ok { objs := objs5.map prune_empty_leaf, bl_materials := dedup_mats cfg objs0 }
      else
        let objs6 := objs5.map clear_parent
        match normalise_group ((objs6.filterMap (·.bl_object)).map some) with
        | .error e => .error e
        | .ok group2 =>
          .ok { objs := (bake_objects (group2.filterMap fun o => o.map (·.name)) objs6).map
                  prune_empty_flat,
                bl_materials := dedup_mats cfg objs0 }

/-- `import_scene` with the `except` wrapper of lines 476-477. -/
def import_scene (cfg : ImportConfig) (objs0 : List Data3dObject) :
    Except PyErr ImportResult :=
  match import_scene_body cfg objs0 with
  | .ok st => .ok st
  | .error e => .error (.importSceneFailed e)

/-! ## The emission path (C2) -/

/-- The emissive-check call always raises: the call site passes the
keyword argument `fallback`, which `get_al_mat_node` does not declare. -/
theorem mesh_is_emissive_error (mat : Material) :
    mesh_is_emissive mat =
      .error (.typeError "get_al_mat_node got an unexpected keyword argument") := rfl

/-- The C2 scenario material: emission coefficient 2.0 and nothing else. -/
def emissiveMat : RawMat := [(D3D.coef_emit, Value.num 2)]

/-- A single root node whose only mesh resolves to the emissive material. -/
def emissiveNode : Data3dObject :=
  { node_id := "n",
    meshes := [{ name := "m", material := some "mat0" }],
    materials := [("mat0", emissiveMat)] }

def emissiveCfg : ImportConfig :=
  { import_materials := true, import_hierarchy := true, import_al_metadata := false,
    global_matrix := [[1, 0, 0, 0], [0, 1, 0, 0], [0, 0, 1, 0], [0, 0, 0, 1]] }

/-- C2 (code-bug evidence): importing a node whose only material has
emission coefficient 2.0 does not produce an emission sub-object; the
whole import aborts with a TypeError: line 386 of import_data3d.py
calls `get_al_mat_node` with the undeclared keyword argument `fallback`
(material_utils.py line 54 declares only `key`). -/
theorem import_scene_emissive_node_type_error :
    import_scene emissiveCfg [emissiveNode] =
      .error (.importSceneFailed
        (.typeError "get_al_mat_node got an unexpected keyword argument")) := by
  rfl

/-! ## Material resolution failure (C7) -/

/-- Looking a key up in a key-preserving value-mapped dict. -/
theorem assocGet_map_values {β γ : Type} (f : β → γ) (A : List (String × β)) (k : String) :
    assocGet (A.map fun km => (km.1, f km.2)) k = (assocGet A k).map f := by
  induction A with
  | nil => simp [assocGet]
  | cons a A ih =>
    by_cases hk : a.1 = k
    · rw [List.map_cons, assocGet_cons_pos _ (by simpa using hk), assocGet_cons_pos _ hk]
      rfl
    · rw [List.map_cons, assocGet_cons_neg _ (by simpa using hk), assocGet_cons_neg _ hk]
      exact ih

/-- A mesh whose non-empty material key is missing from the node's
material hash map makes `process_mesh` raise the material-resolution
error, for any available material dict. -/
theorem process_mesh_dangling_key (blm : List (StrHash × Material))
    (mhm : List (String × StrHash)) (m : AlMesh) (k : String)
    (hmat : m.material = some k) (hne : k ≠ "") (hmiss : assocGet mhm k = none) :
    process_mesh true blm mhm m = .error (.materialNotFound none) := by
  rw [process_mesh, hmat]
  simp [hne, hmiss]

/-- If any mesh of the list fails, the whole mesh loop fails. -/
theorem import_object_meshes_error (im : Bool) (blm : List (StrHash × Material))
    (mhm : List (String × StrHash)) (ms : List AlMesh) (m : AlMesh) (hm : m ∈ ms)
    (e : PyErr) (he : process_mesh im blm mhm m = .error e) :
    ∃ e2, import_object_meshes im blm mhm ms = .error e2 := by
  induction ms with
  | nil => cases hm
  | cons a rest ih =>
    rcases List.mem_cons.mp hm with rfl | hm2
    · exact ⟨e, by rw [import_object_meshes, he]⟩
    · cases hpa : process_mesh im blm mhm a with
      | error e0 => exact ⟨e0, by rw [import_object_meshes, hpa]⟩
      | ok r =>
        rcases ih hm2 with ⟨e2, he2⟩
        exact ⟨e2, by rw [import_object_meshes, hpa, he2]⟩

/-- If a node's mesh loop fails, building the node fails. -/
theorem build_node_error (im : Bool) (blm : List (StrHash × Material)) (d : Data3dObject)
    (e : PyErr) (he : import_object_meshes im blm d.mat_hash_map d.meshes = .error e) :
    build_node im blm d = .error e := by
  rw [build_node, he]

/-- If building any node fails, the node loop fails. -/
theorem build_nodes_error (im : Bool) (blm : List (StrHash × Material))
    (objs : List Data3dObject) (d : Data3dObject) (hd : d ∈ objs)
    (e : PyErr) (he : build_node im blm d = .error e) :
    ∃ e2, build_nodes im blm objs = .error e2 := by
  induction objs with
  | nil => cases hd
  | cons a rest ih =>
    rcases List.mem_cons.mp hd with rfl | hd2
    · exact ⟨e, by rw [build_nodes, he]⟩
    · cases hpa : build_node im blm a with
      | error e0 => exact ⟨e0, by rw [build_nodes, hpa]⟩
      | ok r =>
        rcases ih hd2 with ⟨e2, he2⟩
        exact ⟨e2, by rw [build_nodes, hpa, he2]⟩

/-- If the node loop fails, `import_scene` fails (wrapped by the
`except` clause). -/
theorem import_scene_error_of_build (cfg : ImportConfig) (objs0 : List Data3dObject)
    (e : PyErr)
    (he : build_nodes cfg.import_materials (dedup_mats cfg objs0) (dedup_objs cfg objs0) =
      .error e) :
    import_scene cfg objs0 = .error (.importSceneFailed e) := by
  rw [import_scene, import_scene_body, he]

/-- C7: When materials are imported, a mesh whose declared non-empty
local material key is absent from its owning node's material map (so no
canonical hash was recorded for it) causes the import to fail with the
material-resolution error, rather than proceeding with a partial
result. -/
theorem import_fails_on_dangling_material_key (cfg : ImportConfig)
    (objs0 : List Data3dObject) (d : Data3dObject) (m : AlMesh) (k : String)
    (him : cfg.import_materials = true)
    (hd : d ∈ objs0) (hm : m ∈ d.meshes)
    (hmat : m.material = some k) (hne : k ≠ "")
    (hmiss : assocGet d.materials k = none) :
    (∀ blm : List (StrHash × Material),
      process_mesh true blm (expected_hash_map cfg.import_al_metadata d) m =
        .error (.materialNotFound none)) ∧
    ∃ e, import_scene cfg objs0 = .error e := by
  have hmv : assocGet (expected_hash_map cfg.import_al_metadata d) k =
      (assocGet d.materials k).map fun r => str_of_hash (matHash cfg.import_al_metadata r) :=
    assocGet_map_values (fun r => str_of_hash (matHash cfg.import_al_metadata r)) d.materials k
  have hmiss2 : assocGet (expected_hash_map cfg.import_al_metadata d) k = none := by
    rw [hmv, hmiss]
    rfl
  refine ⟨fun blm => process_mesh_dangling_key blm _ m k hmat hne hmiss2, ?_⟩
  have hobjs : dedup_objs cfg objs0 = objs0.map (dedup_update cfg.import_al_metadata) := by
    rw [dedup_objs, if_pos him, import_data3d_materials_eq]
  have hd2 : dedup_update cfg.import_al_metadata d ∈ dedup_objs cfg objs0 := by
    rw [hobjs]
    exact List.mem_map_of_mem _ hd
  have hpm : process_mesh cfg.import_materials (dedup_mats cfg objs0)
      (dedup_update cfg.import_al_metadata d).mat_hash_map m =
        .error (.materialNotFound none) := by
    rw [him]
    exact process_mesh_dangling_key _ _ m k hmat hne hmiss2
  rcases import_object_meshes_error cfg.import_materials (dedup_mats cfg objs0)
      (dedup_update cfg.import_al_metadata d).mat_hash_map
      (dedup_update cfg.import_al_metadata d).meshes m hm _ hpm with ⟨e0, he0⟩
  have hbn : build_node cfg.import_materials (dedup_mats cfg objs0)
      (dedup_update cfg.import_al_metadata d) = .error e0 :=
    build_node_error _ _ _ _ he0
  rcases build_nodes_error cfg.import_materials (dedup_mats cfg objs0)
      (dedup_objs cfg objs0) _ hd2 _ hbn with ⟨e2, he2⟩
  exact ⟨.importSceneFailed e2, import_scene_error_of_build cfg objs0 e2 he2⟩

/-- The C7 scenario: one node declaring no materials, whose mesh
references the local key "wall". -/
def danglingNode : Data3dObject :=
  { node_id := "n7",
    meshes := [{ name := "m7", material := some "wall" }],
    materials := [] }

def danglingCfg : ImportConfig :=
  { import_materials := true, import_hierarchy := true, import_al_metadata := false,
    global_matrix := [[1, 0], [0, 1]] }

/-- Witness for C7 at the concrete dangling-reference scene. -/
theorem import_fails_on_dangling_material_key_witness :
    (danglingCfg.import_materials = true ∧ danglingNode ∈ [danglingNode] ∧
      ({ name := "m7", material := some "wall" } : AlMesh) ∈ danglingNode.meshes ∧
      ({ name := "m7", material := some "wall" } : AlMesh).material = some "wall" ∧
      "wall" ≠ "" ∧ assocGet danglingNode.materials "wall" = none) ∧
    ((∀ blm : List (StrHash × Material),
      process_mesh true blm (expected_hash_map danglingCfg.import_al_metadata danglingNode)
          { name := "m7", material := some "wall" } =
        .error (.materialNotFound none)) ∧
      ∃ e, import_scene danglingCfg [danglingNode] = .error e) :=
  ⟨⟨rfl, by simp, by simp [danglingNode], rfl, by decide, rfl⟩,
    import_fails_on_dangling_material_key danglingCfg [danglingNode] danglingNode
      { name := "m7", material := some "wall" } "wall" rfl (by simp)
      (by simp [danglingNode]) rfl (by decide) rfl⟩

/-! ## Empty or absent material key (C8) -/

/-- Amended C8: with materials being imported, a mesh whose material key
is empty or absent never fails; an absent key receives the documented
default material, while a present-but-empty key silently leaves the mesh
with no material assigned (the `if original_key:` guard at line 381
skips both the resolution and the default-material branch). -/
theorem process_mesh_empty_or_absent_key (blm : List (StrHash × Material))
    (mhm : List (String × StrHash)) (m : AlMesh) :
    (m.material = none →
      process_mesh true blm mhm m =
        .ok ({ name := m.name, isMesh := true,
               data_materials := [.named D3D.mat_default] }, false)) ∧
    (m.material = some "" →
      process_mesh true blm mhm m = .ok ({ name := m.name, isMesh := true }, false)) := by
  constructor
  · intro h
    rw [process_mesh, h]
    rfl
  · intro h
    rw [process_mesh, h]
    simp

/-- The concrete present-but-empty material key mesh. -/
def emptyKeyMesh : AlMesh := { name := "m8", material := some "" }

/-- The concrete absent material key mesh. -/
def absentKeyMesh : AlMesh := { name := "m8a" }

/-- Counterexample to C8 as stated: with a present-but-empty material
key the import does not fail, but it assigns no material at all — in
particular not the documented default material. -/
theorem process_mesh_empty_key_assigns_no_default :
    process_mesh true [] [] emptyKeyMesh = .ok ({ name := "m8", isMesh := true }, false) ∧
    ({ name := "m8", isMesh := true } : BlObject).data_materials = [] :=
  ⟨by rw [process_mesh]; simp [emptyKeyMesh], rfl⟩

/-- Witness for the amended C8 at concrete meshes. -/
theorem process_mesh_empty_or_absent_key_witness :
    (absentKeyMesh.material = none ∧
      process_mesh true [] [] absentKeyMesh =
        .ok ({ name := "m8a", isMesh := true,
               data_materials := [.named D3D.mat_default] }, false)) ∧
    (emptyKeyMesh.material = some "" ∧
      process_mesh true [] [] emptyKeyMesh =
        .ok ({ name := "m8", isMesh := true }, false)) :=
  ⟨⟨rfl, (process_mesh_empty_or_absent_key [] [] absentKeyMesh).1 rfl⟩,
    ⟨rfl, (process_mesh_empty_or_absent_key [] [] emptyKeyMesh).2 rfl⟩⟩

/-! ## Root transform normalisation (C9, C10) -/

/-- The matrix-related fields of a Blender object: world matrix, number
of `matrix_world` assignments, and whether `transform_apply` baked it. -/
def mfields (o : BlObject) : Option M4 × Nat × Bool :=
  (o.matrix_world, o.mw_writes, o.baked)

/-- The working group of `normalise_objects` is empty on any list of
real (non-None) objects: `obj is None and obj.type != 'MESH'`
short-circuits to False for every real object. -/
theorem normalise_group_all_some (l : List BlObject) :
    normalise_group (l.map some) = .ok [] := by
  induction l with
  | nil => rfl
  | cons o l ih => simp [normalise_group, normalise_pick, ih]

/-- Baking an empty selection changes nothing. -/
theorem bake_objects_nil (objs : List Data3dObject) : bake_objects [] objs = objs := by
  rw [bake_objects]
  conv_rhs => rw [← List.map_id objs]
  refine List.map_congr_left fun d _ => ?_
  simp

/-- Objects created by `process_mesh` start with no world matrix, no
matrix assignments and no baked transform. -/
theorem process_mesh_ok_fresh {im : Bool} {blm : List (StrHash × Material)}
    {mhm : List (String × StrHash)} {m : AlMesh} {r : BlObject × Bool}
    (h : process_mesh im blm mhm m = .ok r) : mfields r.1 = (none, 0, false) := by
  rw [process_mesh] at h
  repeat split at h
  all_goals cases h
  all_goals rfl

/-- All objects produced by the mesh loop are fresh. -/
theorem import_object_meshes_ok_fresh {im : Bool} {blm : List (StrHash × Material)}
    {mhm : List (String × StrHash)} :
    ∀ {ms : List AlMesh} {r : List BlObject × List BlObject},
      import_object_meshes im blm mhm ms = .ok r →
      (∀ o ∈ r.1, mfields o = (none, 0, false)) ∧
      (∀ o ∈ r.2, mfields o = (none, 0, false)) := by
  intro ms
  induction ms with
  | nil =>
    intro r h
    cases h
    simp
  | cons m rest ih =>
    intro r h
    rw [import_object_meshes] at h
    cases hpm : process_mesh im blm mhm m with
    | error e => rw [hpm] at h; cases h
    | ok r0 =>
      rw [hpm] at h
      cases hrec : import_object_meshes im blm mhm rest with
      | error e => rw [hrec] at h; cases h
      | ok rr =>
        rw [hrec] at h
        cases h
        have h0 := process_mesh_ok_fresh hpm
        have hr := ih hrec
        by_cases hb : r0.2
        · rw [if_pos hb]
          refine ⟨hr.1, fun o ho => ?_⟩
          rcases List.mem_cons.mp ho with rfl | ho2
          · exact h0
          · exact hr.2 o ho2
        · rw [if_neg hb]
          refine ⟨fun o ho => ?_, hr.2⟩
          rcases List.mem_cons.mp ho with rfl | ho2
          · exact h0
          · exact hr.1 o ho2

/-- `join_objects` keeps the first object's matrix fields. -/
theorem join_objects_mfields (g0 : BlObject) (rest : List BlObject) :
    mfields (join_objects g0 rest) = mfields g0 := rfl

/-- A successfully built node keeps its parent reference and children
and carries fresh primary/emission objects. -/
theorem build_node_ok_facts {im : Bool} {blm : List (StrHash × Material)}
    {d d2 : Data3dObject} (h : build_node im blm d = .ok d2) :
    d2.parentIdx = d.parentIdx ∧ d2.children = d.children ∧
    (∃ o, d2.bl_object = some o ∧ mfields o = (none, 0, false)) ∧
    (∀ e, d2.bl_emission_object = some e → mfields e = (none, 0, false)) := by
  rw [build_node] at h
  cases hio : import_object_meshes im blm d.mat_hash_map d.meshes with
  | error e => rw [hio] at h; cases h
  | ok r =>
    rw [hio] at h
    obtain ⟨ms, es⟩ := r
    have hfresh := import_object_meshes_ok_fresh hio
    cases h
    refine ⟨rfl, rfl, ?_, ?_⟩
    · cases ms with
      | nil => exact ⟨_, rfl, rfl⟩
      | cons g0 rest =>
        refine ⟨_, rfl, ?_⟩
        have := hfresh.1 g0 (List.mem_cons_self _ _)
        exact this
    · cases es with
      | nil =>
        intro e he
        cases he
      | cons e0 rest =>
        intro e he
        cases he
        exact hfresh.2 e0 (List.mem_cons_self _ _)

/-- Every node in a successfully built list comes from building a node
of the input list. -/
theorem build_nodes_ok_mem {im : Bool} {blm : List (StrHash × Material)} :
    ∀ {objs objs2 : List Data3dObject}, build_nodes im blm objs = .ok objs2 →
      ∀ d2 ∈ objs2, ∃ d ∈ objs, build_node im blm d = .ok d2 := by
  intro objs
  induction objs with
  | nil =>
    intro objs2 h d2 hd2
    cases h
    cases hd2
  | cons a rest ih =>
    intro objs2 h d2 hd2
    rw [build_nodes] at h
    cases ha : build_node im blm a with
    | error e => rw [ha] at h; cases h
    | ok a2 =>
      rw [ha] at h
      cases hrec : build_nodes im blm rest with
      | error e => rw [hrec] at h; cases h
      | ok rest2 =>
        rw [hrec] at h
        cases h
        rcases List.mem_cons.mp hd2 with rfl | hd2'
        · exact ⟨a, List.mem_cons_self _ _, ha⟩
        · rcases ih hrec d2 hd2' with ⟨d, hdmem, hd⟩
          exact ⟨d, List.mem_cons_of_mem _ hdmem, hd⟩

/-- `link_object` changes only parent links. -/
theorem link_object_fields (objs : List Data3dObject) (d : Data3dObject) :
    (link_object objs d).parentIdx = d.parentIdx ∧
    (link_object objs d).bl_object.map mfields = d.bl_object.map mfields ∧
    (link_object objs d).bl_emission_object.map mfields = d.bl_emission_object.map mfields := by
  cases hp : d.parentIdx with
  | none => simp [link_object, hp]
  | some p =>
    refine ⟨by simp [link_object, hp], ?_, ?_⟩
    · cases ho : d.bl_object <;> simp [link_object, hp, ho, mfields]
    · cases he : d.bl_emission_object <;> simp [link_object, hp, he, mfields]

/-- `prune_empty_leaf` changes only scene membership. -/
theorem prune_empty_leaf_fields (d : Data3dObject) :
    (prune_empty_leaf d).parentIdx = d.parentIdx ∧
    (prune_empty_leaf d).bl_object.map mfields = d.bl_object.map mfields ∧
    (prune_empty_leaf d).bl_emission_object = d.bl_emission_object := by
  cases ho : d.bl_object with
  | none => simp [prune_empty_leaf, ho]
  | some o =>
    by_cases hc : (!o.isMesh && d.children.isEmpty) = true
    · simp [prune_empty_leaf, ho, hc, mfields]
    · simp [prune_empty_leaf, ho, hc]

/-- `clear_parent` changes only parent links. -/
theorem clear_parent_fields (d : Data3dObject) :
    (clear_parent d).parentIdx = d.parentIdx ∧
    (clear_parent d).bl_object.map mfields = d.bl_object.map mfields ∧
    (clear_parent d).bl_emission_object = d.bl_emission_object := by
  refine ⟨rfl, ?_, rfl⟩
  cases ho : d.bl_object <;> simp [clear_parent, ho, mfields]

/-- `prune_empty_flat` changes only scene membership. -/
theorem prune_empty_flat_fields (d : Data3dObject) :
    (prune_empty_flat d).parentIdx = d.parentIdx ∧
    (prune_empty_flat d).bl_object.map mfields = d.bl_object.map mfields ∧
    (prune_empty_flat d).bl_emission_object = d.bl_emission_object := by
  cases ho : d.bl_object with
  | none => simp [prune_empty_flat, ho]
  | some o =>
    by_cases hc : (!o.isMesh) = true
    · simp [prune_empty_flat, ho, hc, mfields]
    · simp [prune_empty_flat, ho, hc]

/-- A successful import reduces to the node-building stage followed by
parenting, the global-matrix loop and the branch-specific cleanup; both
`normalise_objects` calls contribute an empty group, so no baking
happens. -/
theorem import_scene_ok_shape {cfg : ImportConfig} {objs0 : List Data3dObject}
    {st : ImportResult} (h : import_scene cfg objs0 = .ok st) :
    ∃ objs2,
      build_nodes cfg.import_materials (dedup_mats cfg objs0) (dedup_objs cfg objs0) =
        .ok objs2 ∧
      ((cfg.import_hierarchy = true ∧
        st.objs = (apply_global_matrix cfg.global_matrix (set_parent_links objs2)).map
          prune_empty_leaf) ∨
       (cfg.import_hierarchy = false ∧
        st.objs = ((apply_global_matrix cfg.global_matrix (set_parent_links objs2)).map
          clear_parent).map prune_empty_flat)) := by
  rw [import_scene] at h
  cases hb : import_scene_body cfg objs0 with
  | error e => rw [hb] at h; cases h
  | ok st2 =>
    rw [hb] at h
    cases h
    rw [import_scene_body] at hb
    split at hb
    · cases hb
    · rename_i objs2 hbn
      refine ⟨objs2, hbn, ?_⟩
      split at hb
      · rename_i e hne
        rw [normalise_group_all_some] at hne
        cases hne
      · rename_i group hng
        have hgroup : group = [] := by
          rw [normalise_group_all_some] at hng
          injection hng with h2
          exact h2.symm
        rw [hgroup] at hb
        simp only [List.filterMap_nil, bake_objects_nil] at hb
        split at hb
        · rename_i hh
          cases hb
          exact Or.inl ⟨hh, rfl⟩
        · rename_i hh
          split at hb
          · rename_i e hne
            rw [normalise_group_all_some] at hne
            cases hne
          · rename_i group2 hng2
            have hgroup2 : group2 = [] := by
              rw [normalise_group_all_some] at hng2
              injection hng2 with h2
              exact h2.symm
            rw [hgroup2] at hb
            simp only [List.filterMap_nil, bake_objects_nil] at hb
            cases hb
            exact Or.inr ⟨by simpa using hh, rfl⟩

/-- Unpack an `Option.map mfields` equation into the underlying
object. -/
theorem mfields_map_eq_some {x : Option BlObject} {t : Option M4 × Nat × Bool}
    (h : x.map mfields = some t) :
    ∃ o, x = some o ∧ o.matrix_world = t.1 ∧ o.mw_writes = t.2.1 ∧ o.baked = t.2.2 := by
  cases x with
  | none => cases h
  | some o =>
    rw [Option.map_some'] at h
    injection h with h2
    exact ⟨o, rfl, by rw [← h2]; rfl, by rw [← h2]; rfl, by rw [← h2]; rfl⟩

/-- The object slots produced by `apply_matrix_object` on a root. -/
theorem apply_matrix_object_root {g : M4} {d : Data3dObject} (hp : d.parentIdx = none) :
    (apply_matrix_object g d).parentIdx = d.parentIdx ∧
    (apply_matrix_object g d).bl_object =
      d.bl_object.map (fun o => { o with matrix_world := some g, mw_writes := o.mw_writes + 1 }) ∧
    (apply_matrix_object g d).bl_emission_object =
      d.bl_emission_object.map
        (fun o => { o with matrix_world := some g, mw_writes := o.mw_writes + 1 }) := by
  rw [apply_matrix_object, if_pos (by simp [hp])]
  exact ⟨rfl, rfl, rfl⟩

/-- `apply_matrix_object` leaves a non-root node untouched. -/
theorem apply_matrix_object_nonroot {g : M4} {d : Data3dObject} (hp : d.parentIdx ≠ none) :
    apply_matrix_object g d = d := by
  rw [apply_matrix_object, if_neg (by simp [Option.isNone_iff_eq_none, hp])]

/-- `apply_matrix_object` never changes the parent reference. -/
theorem apply_matrix_object_parentIdx (g : M4) (x : Data3dObject) :
    (apply_matrix_object g x).parentIdx = x.parentIdx := by
  by_cases hp : x.parentIdx = none
  · exact (apply_matrix_object_root hp).1
  · rw [apply_matrix_object_nonroot hp]

/-- The matrix-field image of the `matrix_world` assignment. -/
theorem mfields_assign (g : M4) (o : BlObject) :
    mfields { o with matrix_world := some g, mw_writes := o.mw_writes + 1 } =
      (some g, o.mw_writes + 1, o.baked) := rfl

/-- Componentwise reading of an `mfields` equation. -/
theorem mfields_eq_unpack {o : BlObject} {a : Option M4} {b : Nat} {c : Bool}
    (h : mfields o = (a, b, c)) :
    o.matrix_world = a ∧ o.mw_writes = b ∧ o.baked = c :=
  ⟨congrArg Prod.fst h, congrArg (fun t => t.2.1) h, congrArg (fun t => t.2.2) h⟩

/-- Shared fact base for C9 and C10: in any successful import, the
world matrix of every root node's primary and emission object is the
caller-supplied global matrix, assigned exactly once and with no baked
transform; the objects of non-root nodes are never assigned a world
matrix. -/
theorem import_scene_ok_object_facts {cfg : ImportConfig} {objs0 : List Data3dObject}
    {st : ImportResult} (h : import_scene cfg objs0 = .ok st) :
    ∀ d ∈ st.objs,
      (d.parentIdx = none →
        (∃ o, d.bl_object = some o ∧ o.matrix_world = some cfg.global_matrix ∧
          o.mw_writes = 1 ∧ o.baked = false) ∧
        (∀ e, d.bl_emission_object = some e → e.matrix_world = some cfg.global_matrix ∧
          e.mw_writes = 1 ∧ e.baked = false)) ∧
      (d.parentIdx ≠ none →
        (∀ o, d.bl_object = some o → o.matrix_world = none ∧ o.mw_writes = 0 ∧
          o.baked = false) ∧
        (∀ e, d.bl_emission_object = some e → e.matrix_world = none ∧ e.mw_writes = 0 ∧
          e.baked = false)) := by
  rcases import_scene_ok_shape h with ⟨objs2, hbn, hbranch⟩
  -- the common part: facts about an element of the applied, linked list
  have hcore : ∀ da ∈ apply_global_matrix cfg.global_matrix (set_parent_links objs2),
      (da.parentIdx = none →
        da.bl_object.map mfields = some (some cfg.global_matrix, 1, false) ∧
        (∀ e, da.bl_emission_object = some e → mfields e = (some cfg.global_matrix, 1, false))) ∧
      (da.parentIdx ≠ none →
        (∀ o, da.bl_object = some o → mfields o = (none, 0, false)) ∧
        (∀ e, da.bl_emission_object = some e → mfields e = (none, 0, false))) := by
    intro da hda
    rw [apply_global_matrix] at hda
    rcases List.mem_map.mp hda with ⟨dl, hdl, rfl⟩
    rw [set_parent_links] at hdl
    rcases List.mem_map.mp hdl with ⟨dd, hdd, rfl⟩
    rcases build_nodes_ok_mem hbn dd hdd with ⟨d0, _, hb0⟩
    rcases build_node_ok_facts hb0 with ⟨_, _, ⟨o0, ho0, ho0f⟩, hem0⟩
    rcases link_object_fields objs2 dd with ⟨hlp, hlo, hle⟩
    have hloval : (link_object objs2 dd).bl_object.map mfields = some (none, 0, false) := by
      rw [hlo, ho0, Option.map_some', ho0f]
    have hemfield : ∀ el, (link_object objs2 dd).bl_emission_object = some el →
        mfields el = (none, 0, false) := by
      intro el hel
      have hlee : dd.bl_emission_object.map mfields = some (mfields el) := by
        rw [← hle, hel, Option.map_some']
      cases hed : dd.bl_emission_object with
      | none => rw [hed] at hlee; cases hlee
      | some ed =>
        rw [hed, Option.map_some'] at hlee
        injection hlee with h2
        rw [← h2]
        exact hem0 ed hed
    constructor
    · intro hp
      rw [apply_matrix_object_parentIdx] at hp
      rcases (apply_matrix_object_root hp) with ⟨_, hao, hae⟩
      constructor
      · rcases mfields_map_eq_some hloval with ⟨ol, hol, hol1, hol2, hol3⟩
        rw [hao, hol, Option.map_some', Option.map_some', mfields_assign, hol2, hol3]
      · intro e he
        rw [hae] at he
        rcases Option.map_eq_some'.mp he with ⟨el, hel, rfl⟩
        rcases mfields_eq_unpack (hemfield el hel) with ⟨_, h2', h3'⟩
        rw [mfields_assign, h2', h3']
    · intro hp
      rw [apply_matrix_object_parentIdx] at hp
      rw [apply_matrix_object_nonroot hp]
      constructor
      · intro o ho
        have hmo : (link_object objs2 dd).bl_object.map mfields = some (mfields o) := by
          rw [ho, Option.map_some']
        rw [hloval] at hmo
        injection hmo with h2
        exact h2.symm
      · exact hemfield
  intro d hd
  have hstep : ∀ da dfin : Data3dObject,
      dfin.parentIdx = da.parentIdx →
      dfin.bl_object.map mfields = da.bl_object.map mfields →
      dfin.bl_emission_object = da.bl_emission_object →
      da ∈ apply_global_matrix cfg.global_matrix (set_parent_links objs2) →
      (dfin.parentIdx = none →
        (∃ o, dfin.bl_object = some o ∧ o.matrix_world = some cfg.global_matrix ∧
          o.mw_writes = 1 ∧ o.baked = false) ∧
        (∀ e, dfin.bl_emission_object = some e → e.matrix_world = some cfg.global_matrix ∧
          e.mw_writes = 1 ∧ e.baked = false)) ∧
      (dfin.parentIdx ≠ none →
        (∀ o, dfin.bl_object = some o → o.matrix_world = none ∧ o.mw_writes = 0 ∧
          o.baked = false) ∧
        (∀ e, dfin.bl_emission_object = some e → e.matrix_world = none ∧ e.mw_writes = 0 ∧
          e.baked = false)) := by
    intro da dfin e1 e2 e3 hda
    have hc := hcore da hda
    constructor
    · intro hp
      rw [e1] at hp
      rcases hc.1 hp with ⟨hobj, hemi⟩
      constructor
      · have hmm : dfin.bl_object.map mfields = some (some cfg.global_matrix, 1, false) := by
          rw [e2, hobj]
        rcases mfields_map_eq_some hmm with ⟨o, ho, h1, h2, h3⟩
        exact ⟨o, ho, h1, h2, h3⟩
      · intro e he
        rw [e3] at he
        exact mfields_eq_unpack (hemi e he)
    · intro hp
      rw [e1] at hp
      rcases hc.2 hp with ⟨hobj, hemi⟩
      constructor
      · intro o ho
        have hmo : da.bl_object.map mfields = some (mfields o) := by
          rw [← e2, ho, Option.map_some']
        cases hdao : da.bl_object with
        | none => rw [hdao] at hmo; cases hmo
        | some ol =>
          rw [hdao, Option.map_some'] at hmo
          injection hmo with h2
          have hol := hobj ol hdao
          rw [h2] at hol
          exact mfields_eq_unpack hol
      · intro e he
        rw [e3] at he
        exact mfields_eq_unpack (hemi e he)
  rcases hbranch with ⟨hh, hst⟩ | ⟨hh, hst⟩
  · rw [hst] at hd
    rcases List.mem_map.mp hd with ⟨da, hda, rfl⟩
    rcases prune_empty_leaf_fields da with ⟨p1, p2, p3⟩
    exact hstep da (prune_empty_leaf da) p1 p2 p3 hda
  · rw [hst] at hd
    rcases List.mem_map.mp hd with ⟨dc, hdc, rfl⟩
    rcases List.mem_map.mp hdc with ⟨da, hda, rfl⟩
    rcases clear_parent_fields da with ⟨c1, c2, c3⟩
    rcases prune_empty_flat_fields (clear_parent da) with ⟨q1, q2, q3⟩
    exact hstep da (prune_empty_flat (clear_parent da)) (q1.trans c1) (q2.trans c2)
      (q3.trans c3) hda

/-- C9: The caller-supplied global orientation transform is applied
uniformly to exactly the root-level objects, exactly once per import
(`mw_writes = 1`), after parent/child hierarchy resolution has
completed, and is never applied per non-root node (non-root objects end
the import with no world-matrix assignment at all). -/
theorem import_scene_applies_global_matrix_exactly_to_roots
    (cfg : ImportConfig) (objs0 : List Data3dObject) (st : ImportResult)
    (h : import_scene cfg objs0 = .ok st) :
    ∀ d ∈ st.objs,
      (d.parentIdx = none →
        (∃ o, d.bl_object = some o ∧ o.matrix_world = some cfg.global_matrix ∧
          o.mw_writes = 1) ∧
        (∀ e, d.bl_emission_object = some e →
          e.matrix_world = some cfg.global_matrix ∧ e.mw_writes = 1)) ∧
      (d.parentIdx ≠ none →
        (∀ o, d.bl_object = some o → o.matrix_world = none ∧ o.mw_writes = 0) ∧
        (∀ e, d.bl_emission_object = some e →
          e.matrix_world = none ∧ e.mw_writes = 0)) := by
  intro d hd
  rcases import_scene_ok_object_facts h d hd with ⟨h1, h2⟩
  refine ⟨fun hp => ?_, fun hp => ?_⟩
  · rcases h1 hp with ⟨⟨o, ho, f1, f2, _⟩, hem⟩
    exact ⟨⟨o, ho, f1, f2⟩, fun e he => ⟨(hem e he).1, (hem e he).2.1⟩⟩
  · rcases h2 hp with ⟨hob, hem⟩
    exact ⟨fun o ho => ⟨(hob o ho).1, (hob o ho).2.1⟩,
      fun e he => ⟨(hem e he).1, (hem e he).2.1⟩⟩

/-- A concrete single-root import used to witness the transform
claims. -/
def w9mesh : AlMesh := { name := "m" }

def w9obj : Data3dObject :=
  { node_id := "root", meshes := [w9mesh], position := (1, 2, 3), rotation := (4, 5, 6) }

def w9cfg : ImportConfig :=
  { import_materials := false, import_hierarchy := true, import_al_metadata := false,
    global_matrix := [[0, 1], [1, 0]] }

/-- The node record `import_scene` produces for `w9obj`. -/
def w9d : Data3dObject :=
  { node_id := "root", meshes := [w9mesh], position := (1, 2, 3), rotation := (4, 5, 6),
    bl_object := some
      { name := "root", isMesh := true, location := (1, 2, 3),
        rotation_euler := (4, 5, 6), matrix_world := some [[0, 1], [1, 0]],
        mw_writes := 1 } }

def w9st : ImportResult := { objs := [w9d], bl_materials := [] }

/-- Witness for C9 at the concrete single-root import. -/
theorem import_scene_applies_global_matrix_exactly_to_roots_witness :
    (import_scene w9cfg [w9obj] = .ok w9st ∧ w9d ∈ w9st.objs ∧ w9d.parentIdx = none) ∧
    ((∃ o, w9d.bl_object = some o ∧ o.matrix_world = some w9cfg.global_matrix ∧
      o.mw_writes = 1) ∧
     (∀ e, w9d.bl_emission_object = some e →
       e.matrix_world = some w9cfg.global_matrix ∧ e.mw_writes = 1)) :=
  ⟨⟨rfl, List.mem_singleton.mpr rfl, rfl⟩,
    (import_scene_applies_global_matrix_exactly_to_roots w9cfg [w9obj] w9st rfl w9d
      (List.mem_singleton.mpr rfl)).1 rfl⟩

/-- C10: After `import_scene` completes, every root-level object's world
matrix equals the caller-supplied `global_matrix` exactly, regardless of
the position and rotation decoded for that root node: the preceding
`normalise_objects` call appends none of its inputs to its working group
(its filter condition `obj is None and obj.type != 'MESH'` admits no
real object), so the root's own transform is not baked into the geometry
(`baked = false`) before the world matrix is overwritten by
assignment. -/
theorem normalise_noop_and_root_world_matrix_exact
    (cfg : ImportConfig) (objs0 : List Data3dObject) (st : ImportResult)
    (h : import_scene cfg objs0 = .ok st) :
    (∀ objects : List BlObject, normalise_group (objects.map some) = .ok []) ∧
    ∀ d ∈ st.objs, d.parentIdx = none →
      ∃ o, d.bl_object = some o ∧ o.matrix_world = some cfg.global_matrix ∧
        o.baked = false := by
  refine ⟨normalise_group_all_some, fun d hd hp => ?_⟩
  rcases (import_scene_ok_object_facts h d hd).1 hp with ⟨⟨o, ho, f1, _, f3⟩, _⟩
  exact ⟨o, ho, f1, f3⟩

/-- A concrete real object for the normalisation part of the C10
witness. -/
def w10ob : BlObject := { name := "x", isMesh := true }

/-- Witness for C10 at the concrete single-root import. -/
theorem normalise_noop_and_root_world_matrix_exact_witness :
    (import_scene w9cfg [w9obj] = .ok w9st ∧ w9d ∈ w9st.objs ∧ w9d.parentIdx = none) ∧
    (normalise_group ([w10ob].map some) = .ok [] ∧
     ∃ o, w9d.bl_object = some o ∧ o.matrix_world = some w9cfg.global_matrix ∧
       o.baked = false) :=
  ⟨⟨rfl, List.mem_singleton.mpr rfl, rfl⟩,
    ⟨(normalise_noop_and_root_world_matrix_exact w9cfg [w9obj] w9st rfl).1 [w10ob],
     (normalise_noop_and_root_world_matrix_exact w9cfg [w9obj] w9st rfl).2 w9d
       (List.mem_singleton.mpr rfl) rfl⟩⟩

end Data3d
